import Mathlib

/-!
Shallow embedding of `dashproxy.py` (the dash-proxy repository) and proofs
checking the natural-language specification's claims against it.

Conventions used throughout:
* Python strings are modelled as `List Char`; the handful of `String`-typed
  entry points convert via `String.data`.
* Python exceptions are modelled with `Except PyErr`; the constructor names
  the Python exception class that the corresponding source line raises.
* Machine integers do not occur (Python ints are unbounded), so `Int`/`Nat`
  model them exactly.  Float arithmetic in the source is modelled over `ℚ`
  (exact field arithmetic); the claims under study never depend on binary
  rounding.
-/

deriving instance DecidableEq for Except

/-- Python exception classes raised by the code paths modelled here. -/
inductive PyErr where
  | nameError
  | attributeError
  | valueError
  | keyError
  | zeroDivisionError
  | indexError
  deriving DecidableEq, Repr

/-- Index of the last occurrence of `c` in `l` (Python `str.rfind` on a
single-character needle, `none` for `-1`). -/
def lastIdxOf (l : List Char) (c : Char) : Option Nat :=
  match l with
  | [] => none
  | x :: xs =>
    match lastIdxOf xs c with
    | some i => some (i + 1)
    | none => if x = c then some 0 else none

/-! ## DurationParser: `get_isosplit` / `parse_isoduration` (dashproxy.py lines 25-48) -/

/-- `s.split('P')[-1]`: the text after the last `'P'`, the whole string when
no `'P'` occurs (`''.split('P')[-1] == ''`). -/
def afterLastChar (l : List Char) (c : Char) : List Char :=
  match lastIdxOf l c with
  | some i => l.drop (i + 1)
  | none => l

/-- `get_isosplit(s, split)` from the source:
`if split in s: n, s = s.split(split) else: n = 0`.
`s.split(c)` yields (occurrence count + 1) parts, and the two-name unpacking
succeeds only when the delimiter occurs exactly once; more occurrences raise
`ValueError` (too many values to unpack).  `none` in the first component is
the integer `0` default taken when the delimiter is absent. -/
def get_isosplit (s : List Char) (c : Char) :
    Except PyErr (Option (List Char) × List Char) :=
  if s.countP (fun x => x = c) = 0 then
    Except.ok (none, s)
  else if s.countP (fun x => x = c) = 1 then
    Except.ok (some (s.takeWhile (fun x => x ≠ c)),
               (s.dropWhile (fun x => x ≠ c)).tail)
  else
    Except.error PyErr.valueError

/-- Numeric value of a digit string (most significant first). -/
def digitsVal (l : List Char) : Nat :=
  l.foldl (fun a c => a * 10 + (c.toNat - '0'.toNat)) 0

/-- Python `int(str)` on the fragment the proxy feeds it: an optional sign
followed by a non-empty run of decimal digits; anything else raises
`ValueError` (in particular `int('')`). -/
def pyInt (l : List Char) : Except PyErr Int :=
  match l with
  | '-' :: rest =>
    if rest ≠ [] ∧ rest.all Char.isDigit then Except.ok (-(digitsVal rest : Int))
    else Except.error PyErr.valueError
  | '+' :: rest =>
    if rest ≠ [] ∧ rest.all Char.isDigit then Except.ok (digitsVal rest : Int)
    else Except.error PyErr.valueError
  | _ =>
    if l ≠ [] ∧ l.all Char.isDigit then Except.ok (digitsVal l : Int)
    else Except.error PyErr.valueError

/-- Python `float(str)` on decimal numerals: optional sign, then digits with
at most one `'.'` and at least one digit overall; anything else raises
`ValueError`.  The value is exact over `ℚ`. -/
def pyFloat (l : List Char) : Except PyErr ℚ :=
  let core : List Char → Except PyErr ℚ := fun m =>
    if m.countP (fun x => x = '.') = 0 then
      if m ≠ [] ∧ m.all Char.isDigit then Except.ok ((digitsVal m : ℚ))
      else Except.error PyErr.valueError
    else if m.countP (fun x => x = '.') = 1 then
      let ip := m.takeWhile (fun x => x ≠ '.')
      let fp := (m.dropWhile (fun x => x ≠ '.')).tail
      if (ip ≠ [] ∨ fp ≠ []) ∧ ip.all Char.isDigit ∧ fp.all Char.isDigit then
        Except.ok ((digitsVal ip : ℚ) + (digitsVal fp : ℚ) / ((10 : ℚ) ^ fp.length))
      else Except.error PyErr.valueError
    else Except.error PyErr.valueError
  match l with
  | '-' :: rest => (core rest).map (fun q => -q)
  | '+' :: rest => core rest
  | _ => core l

/-- A field coming out of `get_isosplit`: the string before the delimiter
when the delimiter was present, otherwise the integer `0`; `int(...)` of
that. -/
def pyIntField (f : Option (List Char)) : Except PyErr Int :=
  match f with
  | none => Except.ok 0
  | some s => pyInt s

/-- Same for the seconds field, which the source feeds to `float(...)`. -/
def pyFloatField (f : Option (List Char)) : Except PyErr ℚ :=
  match f with
  | none => Except.ok 0
  | some s => pyFloat s

/-- `parse_isoduration` from the source, line by line: strip everything up to
the last `'P'`, step through the delimiters `D T H M S .` in that order, then
convert (`int` for days/hours/minutes/milliseconds, `float` for seconds) and
sum via `timedelta(...).total_seconds()`, which is
`days*86400 + hours*3600 + minutes*60 + seconds + milliseconds/1000`. -/
def parse_isoduration (s0 : List Char) : Except PyErr ℚ := do
  let s := afterLastChar s0 'P'
  let (days, s) ← get_isosplit s 'D'
  let (_, s) ← get_isosplit s 'T'
  let (hours, s) ← get_isosplit s 'H'
  let (minutes, s) ← get_isosplit s 'M'
  let (seconds, s) ← get_isosplit s 'S'
  let (milliseconds, _) ← get_isosplit s '.'
  let d ← pyIntField days
  let h ← pyIntField hours
  let m ← pyIntField minutes
  let sec ← pyFloatField seconds
  let ms ← pyIntField milliseconds
  return ((d * 86400 + h * 3600 + m * 60 : Int) : ℚ) + sec + (ms : ℚ) / 1000

/-! ## `baseUrl` / `DashProxy.get_base_url` (lines 75-80, 175-186) -/

/-- A direct child element of the manifest root, as ElementTree exposes it:
a tag, optional text, and its own child elements (only their number matters
here, because `bool(elem)` is `len(elem) > 0`). -/
structure XmlNode where
  tag : String
  text : Option String
  childCount : Nat
  deriving DecidableEq, Repr

/-- The parsed manifest root for base-URL resolution. -/
structure XmlRoot where
  children : List XmlNode
  deriving DecidableEq, Repr

/-- `mpd.find(tag, ns)`: the first direct child whose tag matches.  Namespace
resolution prefixes both the query and the parsed tags with the same
`{urn:mpeg:dash:schema:mpd:2011}` string, so comparing local names is
equivalent. -/
def findChild (r : XmlRoot) (t : String) : Option XmlNode :=
  r.children.find? (fun c => c.tag = t)

/-- `baseUrl(url)` from the source: everything up to and including the last
`'/'`, or the whole string when there is none. -/
def baseUrl (url : String) : String :=
  match lastIdxOf url.data '/' with
  | some i => ⟨url.data.take (i + 1)⟩
  | none => url

/-- `str.startswith(p)` via the character lists. -/
def pyStartsWith (s p : String) : Bool :=
  p.data.isPrefixOf s.data

/-- `DashProxy.get_base_url`, line by line: start from the directory of the
proxy's manifest URL; if a `Location` child is present, its text's directory
replaces the base (text `None` raises `AttributeError` inside `baseUrl`);
then look up a child with tag `BaseUrl` — note the source queries the tag
`'mpd:BaseUrl'`, not `'mpd:BaseURL'` — and only if that element is truthy
(`bool(elem)` = it has child elements) inspect its text. -/
def get_base_url (selfMpd : String) (mpd : XmlRoot) : Except PyErr String := do
  let base := baseUrl selfMpd
  let base ←
    match findChild mpd "Location" with
    | some loc =>
      match loc.text with
      | some t => Except.ok (baseUrl t)
      | none => Except.error PyErr.attributeError
    | none => Except.ok base
  match findChild mpd "BaseUrl" with
  | some node =>
    if node.childCount > 0 then
      match node.text with
      | some t =>
        if pyStartsWith t "http://" ∨ pyStartsWith t "https://" then
          Except.ok (baseUrl t)
        else
          Except.ok (base ++ t)
      | none => Except.error PyErr.attributeError
    else
      Except.ok base
  | none => Except.ok base

/-! ## `RepAddr` / `DashProxy.ensure_downloader` (lines 92-99, 213-220)

`RepAddr` defines `__init__` and `__str__` only, so it inherits `object`'s
identity-based `__eq__` and `__hash__`: two distinct `RepAddr` objects are
distinct dictionary keys even when their three indices coincide.  `objId`
models the Python object identity. -/

structure PyRepAddr where
  objId : Nat
  period_idx : Nat
  adaptation_set_idx : Nat
  representation_idx : Nat
  deriving DecidableEq, Repr

/-- `rep_addr in self.downloaders`: dictionary membership through the
default (identity) hash and equality of `RepAddr`. -/
def dictContainsRepAddr (reg : List (Nat × Nat)) (a : PyRepAddr) : Bool :=
  reg.any (fun p => p.1 = a.objId)

/-- `DashProxy.ensure_downloader` acting on `(downloaders, instancesMade)`:
the registry maps the key (an object identity) to the serial number of the
`DashDownloader` built for it; the counter totals the `DashDownloader(...)`
constructions performed so far. -/
def ensure_downloader (st : List (Nat × Nat) × Nat) (a : PyRepAddr) :
    List (Nat × Nat) × Nat :=
  if dictContainsRepAddr st.1 a then
    st
  else
    ((a.objId, st.2) :: st.1, st.2 + 1)

/-! ## `DashProxy.refresh_mpd` (lines 161-173) -/

/-- The status branch of `refresh_mpd` after `r = requests.get(self.mpd)`.
On a non-2xx status the source evaluates
`'...' % (r.status_code, retry_interval)`: the bare name `retry_interval`
is looked up in the local, enclosing, global and builtin scopes only — the
class attribute `DashProxy.retry_interval` is not visible as a bare name
inside a method body — so the lookup raises `NameError` before anything is
logged or any retry is scheduled.  On a 2xx status the method proceeds to
parse the body and call `handle_mpd` (`Except.ok true`). -/
def refresh_mpd_status_branch (status : Int) : Except PyErr Bool :=
  if status < 200 ∨ 300 ≤ status then
    Except.error PyErr.nameError
  else
    Except.ok true

/-! ## End of `DashProxy.handle_mpd`: refresh scheduling (lines 206-211) -/

/-- What the controller does after writing the output manifest. -/
inductive NextAction where
  | refreshAfter (seconds : Nat)
  | terminate
  deriving DecidableEq, Repr

/-- `mpd.attrib.get(key, '')` over the root attribute dictionary. -/
def lookupAttr (attribs : List (String × String)) (k : String) : Option String :=
  (attribs.find? (fun p => p.1 = k)).map (fun p => p.2)

/-- Lines 206-211: `minimum_update_period = mpd.attrib.get('minimumUpdatePeriod', '')`
followed by `if minimum_update_period:` — string truthiness, i.e. the branch
is taken iff the resulting string is non-empty; the delay passed to
`refresh_mpd` is the literal `10`. -/
def after_write_transition (attribs : List (String × String)) : NextAction :=
  let minimum_update_period := (lookupAttr attribs "minimumUpdatePeriod").getD ""
  if minimum_update_period = "" then
    NextAction.terminate
  else
    NextAction.refreshAfter 10

/-! ## SegmentTimeline resolution (`DashDownloader.handle_mpd`, lines 264-286) -/

/-- An `<S>` element of a `SegmentTimeline`: each attribute either absent or
carrying its parsed integer value (`int(...)` of the attribute string; the
timeline pass re-reads them with defaults `'0'`/`'-1'`). -/
structure SElem where
  t : Option Int
  d : Option Int
  r : Option Int
  deriving DecidableEq, Repr

/-- Python `list.insert(i, x)` (and `Element.insert` on the child list):
insert before position `i`, clamping past the end. -/
def pyInsert {α : Type} (l : List α) (i : Nat) (x : α) : List α :=
  l.take i ++ x :: l.drop i

/-- The inner `for _ in range(0, repeat)` loop: starting at cursor `idx`,
insert `n` fresh `<S d=duration>` elements (no `t`, no `r`) one after
another, stepping the cursor past each. -/
def insertRepeats (live : List SElem) (idx : Nat) (dur : Int) :
    Nat → List SElem × Nat
  | 0 => (live, idx)
  | n + 1 => insertRepeats (pyInsert live idx ⟨none, some dur, none⟩) (idx + 1) dur n

/-- The outer expansion loop (lines 266-275): iterate over a deep copy of the
original `<S>` elements while inserting the repeat copies into the live
timeline; `idx` is incremented once per original element and once per
inserted element.  `range(0, repeat)` of a negative parsed `r` is empty,
hence `Int.toNat`. -/
def expandPass : List SElem → Nat → List SElem → List SElem
  | [], _, live => live
  | seg :: rest, idx, live =>
    let p := insertRepeats live (idx + 1) (seg.d.getD 0) (seg.r.getD 0).toNat
    expandPass rest p.2 p.1

/-- Lines 265-275 as a whole: the iteration source is
`copy.deepcopy(segment_timeline.findall('mpd:S', ns))` and the live list
starts as those same elements. -/
def expand_segments (ss : List SElem) : List SElem :=
  expandPass ss 0 ss

/-- The time-assignment pass (lines 278-285): `next_time` starts at 0; each
element's `t` is read with default `'-1'`; `-1` (absent) means the element
receives `t = next_time`, anything else resets `next_time` to the explicit
value; afterwards `next_time` advances by the element's `d` (default `'0'`). -/
def assignPass : Int → List SElem → List SElem
  | _, [] => []
  | next_time, s :: rest =>
    let current_time := s.t.getD (-1)
    if current_time = -1 then
      { s with t := some next_time } :: assignPass (next_time + s.d.getD 0) rest
    else
      s :: assignPass (current_time + s.d.getD 0) rest

/-- Timeline-mode resolution: in-place expansion followed by the single
left-to-right time-assignment pass over the live (expanded) element list. -/
def resolve_timeline (ss : List SElem) : List SElem :=
  assignPass 0 (expand_segments ss)

/-- The claim's reading of the expansion: every entry contributes itself
followed by `r` consecutive copies of duration `d` (no start time, no repeat
count), in place at the entry's position. -/
def claimExpand : List SElem → List SElem
  | [] => []
  | s :: rest =>
    s :: (List.replicate (s.r.getD 0).toNat ⟨none, some (s.d.getD 0), none⟩ ++ claimExpand rest)

/-- The claim's reading of time assignment: a running cursor supplies the
time of an entry without `t`, an explicit `t` is kept and resets the cursor;
either way the cursor then advances by the entry's duration. -/
def claimAssign : Int → List SElem → List SElem
  | _, [] => []
  | cursor, s :: rest =>
    match s.t with
    | some tv => s :: claimAssign (tv + s.d.getD 0) rest
    | none => { s with t := some cursor } :: claimAssign (cursor + s.d.getD 0) rest


/-! ## Template rendering (`DashDownloader.render_template` and the number-mode
template pipeline, lines 288-302, 343-356) -/

/-- Worker for `str.replace`: replaces every occurrence of the non-empty
pattern `p :: ps` left to right.  The structural `fuel` argument only makes
the recursion kernel-reducible: every step consumes at least one character,
so with `fuel` at least the list length the exhaustion case is unreachable. -/
def replaceAllGo (p : Char) (ps repl : List Char) : Nat → List Char → List Char
  | _, [] => []
  | 0, l => l
  | fuel + 1, c :: cs =>
    if (p :: ps).isPrefixOf (c :: cs) then
      repl ++ replaceAllGo p ps repl fuel (cs.drop ps.length)
    else
      c :: replaceAllGo p ps repl fuel cs

/-- Python `s.replace(pat, repl)` (all occurrences).  The source never calls
it with an empty pattern, which case is returned unchanged here. -/
def replaceAll (s pat repl : List Char) : List Char :=
  match pat with
  | [] => s
  | p :: ps => replaceAllGo p ps repl s.length s

/-- Python `s.replace(old, new, 1)` for the single-character replacements
`('$','{',1)`, `('$','}',1)` and `('%',':',1)`. -/
def replaceFirstChar (l : List Char) (oldc newc : Char) : List Char :=
  match l with
  | [] => []
  | x :: xs => if x = oldc then newc :: xs else x :: replaceFirstChar xs oldc newc

/-- `str(n)` / the decimal rendering `format` uses for an integer field. -/
def intRepr (n : Int) : List Char :=
  (toString n).data

/-- Left zero-padding to width `w`. -/
def padZero (w : Nat) (s : List Char) : List Char :=
  List.replicate (w - s.length) '0' ++ s

/-- Python `format(n, spec)` for the format specs the proxy's templates
produce: the empty spec, `d`, and zero-padded width `0<digits>d` (what a
`$Number%05d$` placeholder turns into).  Other specs raise `ValueError`. -/
def formatIntSpec (spec : List Char) (n : Int) : Except PyErr (List Char) :=
  if spec = [] then Except.ok (intRepr n)
  else if spec = ['d'] then Except.ok (intRepr n)
  else
    match spec with
    | '0' :: rest =>
      if rest.getLast? = some 'd' ∧ rest.dropLast ≠ [] ∧ rest.dropLast.all Char.isDigit then
        Except.ok (padZero (digitsVal rest.dropLast) (intRepr n))
      else Except.error PyErr.valueError
    | _ => Except.error PyErr.valueError

/-- `media_template.format(Number=index)` on the templates the number-mode
pipeline builds: at most one replacement field (the first two `'$'`s were
rewritten to `'{'`/`'}'`), whose name must be `Number`, with an optional
format spec after `':'`.  A brace-free template is returned unchanged; an
unmatched brace raises `ValueError`; a field named anything else raises
`KeyError`. -/
def pyFormatNumber (tmpl : List Char) (n : Int) : Except PyErr (List Char) :=
  if tmpl.countP (fun c => c = '{' ∨ c = '}') = 0 then Except.ok tmpl
  else
    let before := tmpl.takeWhile (fun c => c ≠ '{')
    match tmpl.dropWhile (fun c => c ≠ '{') with
    | '{' :: r2 =>
      let field := r2.takeWhile (fun c => c ≠ '}')
      (match r2.dropWhile (fun c => c ≠ '}') with
       | '}' :: tail =>
         let nm := field.takeWhile (fun c => c ≠ ':')
         let spec :=
           match field.dropWhile (fun c => c ≠ ':') with
           | ':' :: sp => sp
           | _ => []
         if nm = "Number".data then
           (formatIntSpec spec n).map (fun v => before ++ v ++ tail)
         else Except.error PyErr.keyError
       | _ => Except.error PyErr.valueError)
    | _ => Except.error PyErr.valueError

/-- A `<Representation>` element: its `id` and `bandwidth` attributes (read
with default `''`) and its optional `<SegmentTemplate>` child. -/
structure SegTemplate where
  initialization : Option (List Char)
  media : Option (List Char)
  timescale : Option Int
  duration : Option Int
  startNumber : Option Int
  timeline : Option (List SElem)
  deriving DecidableEq, Repr

structure RepNode where
  id : List Char
  bandwidth : List Char
  template : Option SegTemplate
  deriving DecidableEq, Repr

/-- `str.format(**args)` restricted to templates whose braces all delimit
fields provided in `args` (the substituted values are assumed brace-free,
which holds for DASH ids/bandwidths/times): substitute every `{name}`, then
a leftover brace means an unknown field and raises `KeyError`. -/
def pyFormatKwargs (t : List Char) (args : List (List Char × List Char)) :
    Except PyErr (List Char) :=
  let r := args.foldl (fun acc kv => replaceAll acc ('{' :: (kv.1 ++ ['}'])) kv.2) t
  if r.countP (fun c => c = '{' ∨ c = '}') = 0 then Except.ok r
  else Except.error PyErr.keyError

/-- `DashDownloader.render_template(template, representation, segment)`:
rewrite the three `$...$` placeholders to format fields, build `args` from
the representation (`id`, `bandwidth`, defaults `''`) and the segment
(`t` attribute, default `''`), and apply `format`. -/
def render_template (template : List Char) (rep : Option RepNode) (seg : Option SElem) :
    Except PyErr (List Char) :=
  let t := replaceAll template "$RepresentationID$".data "{representation_id}".data
  let t := replaceAll t "$Time$".data "{time}".data
  let t := replaceAll t "$Bandwidth$".data "{bandwidth}".data
  let args :=
    (match rep with
     | some r => [("representation_id".data, r.id), ("bandwidth".data, r.bandwidth)]
     | none => []) ++
    (match seg with
     | some s => [("time".data, match s.t with | some v => intRepr v | none => [])]
     | none => [])
  pyFormatKwargs t args

/-- `DashDownloader.get_relative_file_path`: strip a query part, i.e. cut at
the last `'?'` when present. -/
def get_relative_file_path (dest : List Char) : List Char :=
  match lastIdxOf dest '?' with
  | some i => dest.take i
  | none => dest

/-! ## Download effects (`DashDownloader.download_template` lines 328-341 and
the number-mode loop lines 316-325) -/

/-- Externally observable downloader effects: an HTTP GET, a file write
under the output root, or a log line (the skip / failure messages). -/
inductive Act where
  | get (url : List Char)
  | write (path : List Char)
  | logLine
  deriving DecidableEq, Repr

/-- `DashDownloader.download_template`: render the destination, strip the
query part, and — only when no file exists at the relative path — GET the
full URL and write the body on a 2xx status.  `fs` is the set of relative
paths that exist under the output directory; `http` maps a URL to the
status code its GET returns. -/
def download_template (fs : List (List Char)) (http : List Char → Int)
    (base : List Char) (template : List Char) (rep : Option RepNode) (seg : Option SElem) :
    Except PyErr (List Act) := do
  let dest ← render_template template rep seg
  let rel := get_relative_file_path dest
  if rel ∈ fs then
    Except.ok [Act.logLine]
  else
    let u := base ++ dest
    if 200 ≤ http u ∧ http u < 300 then
      Except.ok [Act.get u, Act.write rel]
    else
      Except.ok [Act.get u, Act.logLine]

/-! ## Number mode (`DashDownloader.handle_mpd`, else branch, lines 288-325) -/

/-- The number-mode template pipeline (lines 288-302): substitute
`$RepresentationID$` and `$Bandwidth$` via `format(**args)` (the
representation element is never `None` on this path, so both args are
always provided), then rewrite the first two `'$'`s to `'{'` and `'}'` and
the first `'%'` to `':'`. -/
def transformNumberTemplate (media : List Char) (rep : RepNode) : List Char :=
  let t := replaceAll media "$RepresentationID$".data "{representation_id}".data
  let t := replaceAll t "$Bandwidth$".data "{bandwidth}".data
  let t := replaceAll t "{representation_id}".data rep.id
  let t := replaceAll t "{bandwidth}".data rep.bandwidth
  let t := replaceFirstChar t '$' '{'
  let t := replaceFirstChar t '$' '}'
  replaceFirstChar t '%' ':'

/-- Lines 304-310: `timescale` / `duration` / `startNumber` start from the
AdaptationSet-level template with defaults `'1'`, then each is overridden
individually by the representation-resolved template when that template
sets it (`attrib.get(key, fallback)` with the already-resolved fallback);
the `if segment_template is not None` guard is always true on this path,
since line 259 already dereferenced `segment_template`. -/
def resolveNumberParams (adaptT st : SegTemplate) : Int × Int × Int :=
  let fTimescale := adaptT.timescale.getD 1
  let fDuration := adaptT.duration.getD 1
  let fStartNumber := adaptT.startNumber.getD 1
  (st.timescale.getD fTimescale, st.duration.getD fDuration, st.startNumber.getD fStartNumber)

/-- The claim's wording of the same resolution: AdaptationSet-level values
with defaults 1, each overridden individually when the
representation-resolved template explicitly sets the field. -/
def specResolveNumberParams (adaptT st : SegTemplate) : Int × Int × Int :=
  ((match st.timescale with
    | some v => v
    | none => adaptT.timescale.getD 1),
   (match st.duration with
    | some v => v
    | none => adaptT.duration.getD 1),
   (match st.startNumber with
    | some v => v
    | none => adaptT.startNumber.getD 1))

/-- Python `int()` applied to a float: truncation toward zero; exact over ℚ. -/
def truncQ (q : ℚ) : Int :=
  if 0 ≤ q then ⌊q⌋ else ⌈q⌉

/-- Python `range(a, b)` over integers, as the list it iterates. -/
def pyRange (a b : Int) : List Int :=
  (List.range (b - a).toNat).map (fun k => a + (k : Int))

/-- The `for index in range(fStartNumber, fNumbers+1)` loop (lines 316-325):
render the destination for each index, GET it, and write the body on a 2xx
status — with no existence check of any kind; a non-2xx status is only
logged.  `fs` is in scope exactly as `self.file_exists` is in the source,
and is never consulted.  A rendering exception propagates and aborts the
refresh. -/
def numberLoop (fs : List (List Char)) (http : List Char → Int) (base : List Char)
    (tmpl : List Char) : List Int → Except PyErr (List (Int × List Act))
  | [] => Except.ok []
  | i :: rest => do
    let dest ← pyFormatNumber tmpl i
    let acts :=
      Act.get (base ++ dest) ::
        (if 200 ≤ http (base ++ dest) ∧ http (base ++ dest) < 300 then
          [Act.write dest]
        else
          [Act.logLine])
    let tail ← numberLoop fs http base tmpl rest
    Except.ok ((i, acts) :: tail)

/-- The whole number-mode branch (lines 288-325): build the template, read
the three parameters from `segment_template_from_adapt` — dereferencing it
raises `AttributeError` when the AdaptationSet has no own `SegmentTemplate`
— compute `fDurationInSec = fDuration / fTimescale` (a zero divisor raises
`ZeroDivisionError`), `fNumbers = int(mediaPresentationDurationInSec /
fDurationInSec)`, and run the download loop over
`range(fStartNumber, fNumbers + 1)`. -/
def number_section (fs : List (List Char)) (http : List Char → Int) (base : List Char)
    (mediaPresentationDurationInSec : ℚ) (rep : RepNode)
    (segment_template : SegTemplate) (segment_template_from_adapt : Option SegTemplate) :
    Except PyErr (List (Int × List Act)) :=
  let media_template := transformNumberTemplate (segment_template.media.getD []) rep
  match segment_template_from_adapt with
  | none => Except.error PyErr.attributeError
  | some adaptT =>
    let fTimescale := (resolveNumberParams adaptT segment_template).1
    let fDuration := (resolveNumberParams adaptT segment_template).2.1
    let fStartNumber := (resolveNumberParams adaptT segment_template).2.2
    if fTimescale = 0 then Except.error PyErr.zeroDivisionError
    else
      let fDurationInSec : ℚ := (fDuration : ℚ) / (fTimescale : ℚ)
      if fDurationInSec = 0 then Except.error PyErr.zeroDivisionError
      else
        let fNumbers := truncQ (mediaPresentationDurationInSec / fDurationInSec)
        numberLoop fs http base media_template (pyRange fStartNumber (fNumbers + 1))

/-! ## `MpdLocator` and the per-refresh tree mutation
(`MpdLocator` lines 102-123, `DashProxy.handle_mpd` lines 188-211) -/

/-- An `<AdaptationSet>`: its `mimeType` attribute, optional own
`SegmentTemplate`, and its `Representation` children. -/
structure AdaptNode where
  mimeType : String
  template : Option SegTemplate
  reps : List RepNode
  deriving DecidableEq, Repr

/-- `MpdLocator.segment_template`: the representation-level template when
present, else the AdaptationSet-level one. -/
def segment_template_of (a : AdaptNode) (rep : RepNode) : Option SegTemplate :=
  match rep.template with
  | some t => some t
  | none => a.template

/-- `MpdLocator.segment_template_from_adapt`: always the AdaptationSet-level
template (possibly absent). -/
def segment_template_from_adapt (a : AdaptNode) : Option SegTemplate :=
  a.template

/-- The manifest tree as `DashProxy.handle_mpd` consumes it: the root
attribute dictionary and the `AdaptationSet`s of each `Period`. -/
structure Mpd where
  attribs : List (String × String)
  periods : List (List AdaptNode)
  deriving DecidableEq, Repr

/-- The tree mutation `DashDownloader.handle_mpd` performs for one
representation: when the resolved template carries a `SegmentTimeline`, the
repeat expansion and time assignment rewrite that timeline in place (on the
representation-level template when it exists, else on the shared
AdaptationSet-level one); a template-less representation raises
`AttributeError` (line 120, `None.find`), and number mode without an
AdaptationSet-level template raises `AttributeError` at line 304.  Number
mode with one present touches the tree not at all (its effects live in
`number_section`). -/
def mutateRep (a : AdaptNode) (ri : Nat) : Except PyErr AdaptNode :=
  match a.reps[ri]? with
  | none => Except.error PyErr.indexError
  | some rep =>
    match rep.template with
    | some t =>
      match t.timeline with
      | some tl =>
        Except.ok { a with
          reps := a.reps.set ri
            { rep with template := some { t with timeline := some (resolve_timeline tl) } } }
      | none =>
        match a.template with
        | some _ => Except.ok a
        | none => Except.error PyErr.attributeError
    | none =>
      match a.template with
      | some t =>
        match t.timeline with
        | some tl =>
          Except.ok { a with template := some { t with timeline := some (resolve_timeline tl) } }
        | none => Except.ok a
      | none => Except.error PyErr.attributeError

/-- The inner `for rep_idx, representation in enumerate(...)` loop: each
selected representation's downloader processes (and possibly mutates) the
live adaptation set in order. -/
def processReps (a : AdaptNode) : List Nat → Except PyErr AdaptNode
  | [] => Except.ok a
  | ri :: rest => do
    let a' ← mutateRep a ri
    processReps a' rest

/-- One adaptation set of period 0: the mime-type filter (`continue` when a
non-empty filter differs from the `mimeType` attribute) and then the
representation loop. -/
def processAdapt (mime_type : String) (a : AdaptNode) : Except PyErr AdaptNode :=
  if mime_type ≠ "" ∧ mime_type ≠ a.mimeType then Except.ok a
  else processReps a (List.range a.reps.length)

def processPeriod (mime_type : String) (asets : List AdaptNode) :
    Except PyErr (List AdaptNode) :=
  asets.mapM (processAdapt mime_type)

/-- Result of one `DashProxy.handle_mpd` call: the tree handed to
`ElementTree.tostring` for `manifest.mpd`, the live tree after the
downloaders' in-place mutation, and the scheduling decision. -/
structure HandleMpdResult where
  written : Mpd
  mpdAfter : Mpd
  next : NextAction
  deriving DecidableEq, Repr

/-- `DashProxy.handle_mpd` (lines 188-211): `original_mpd =
copy.deepcopy(mpd)` is taken at entry, before any downloader runs; only
`periods[0]` is processed (an empty period list raises `IndexError`);
`write_output_mpd(original_mpd)` serializes the snapshot; finally the
`minimumUpdatePeriod` check decides the next action.  Base-URL resolution
and the downloads themselves are modelled by `get_base_url`,
`download_template` and `number_section`; they do not touch the tree. -/
def proxy_handle_mpd (mime_type : String) (m : Mpd) : Except PyErr HandleMpdResult :=
  let original_mpd := m
  match m.periods with
  | [] => Except.error PyErr.indexError
  | period :: restPeriods => do
    let period' ← processPeriod mime_type period
    Except.ok
      { written := original_mpd
        mpdAfter := { m with periods := period' :: restPeriods }
        next := after_write_transition m.attribs }

/-- `Except` success test (used to phrase "rendering does not raise"). -/
def exceptOk {ε α : Type} : Except ε α → Bool
  | Except.ok _ => true
  | Except.error _ => false

/-- Concrete inputs shared by several witnesses below. -/
def sampleTimelineTemplate : SegTemplate :=
  ⟨none, none, none, none, none, some [⟨none, some 10, some 2⟩]⟩

def sampleRepT : RepNode :=
  ⟨"v0".data, "500000".data, some sampleTimelineTemplate⟩

def sampleMpd : Mpd :=
  ⟨[("minimumUpdatePeriod", "PT2S")], [[⟨"video/mp4", none, [sampleRepT]⟩]]⟩

/-- `sampleMpd` after its downloader's in-place timeline expansion. -/
def sampleMpdMutated : Mpd :=
  ⟨[("minimumUpdatePeriod", "PT2S")],
   [[⟨"video/mp4", none,
      [⟨"v0".data, "500000".data,
        some ⟨none, none, none, none, none,
          some [⟨some 0, some 10, some 2⟩, ⟨some 10, some 10, none⟩,
                ⟨some 20, some 10, none⟩]⟩⟩]⟩]]⟩

/-- A number-mode representation template: the end-to-end scenario of the
spec (`media="$RepresentationID$_$Number$.m4s"`, `timescale=1`,
`duration=4`, `startNumber=1`). -/
def sampleNumberTemplate : SegTemplate :=
  ⟨none, some "$RepresentationID$_$Number$.m4s".data, some 1, some 4, some 1, none⟩

/-- An AdaptationSet-level template that sets none of the three fields. -/
def sampleAdaptTemplate : SegTemplate :=
  ⟨none, none, none, none, none, none⟩

def sampleRepN : RepNode :=
  ⟨"v0".data, "500000".data, some sampleNumberTemplate⟩

/-- One delimiter section of an ISO-8601 duration body: the field's text
followed by its delimiter when the field is present, nothing otherwise,
prepended to the rest of the body. -/
def fieldSec (f : Option (List Char)) (c : Char) (rest : List Char) : List Char :=
  match f with
  | some x => x ++ c :: rest
  | none => rest

/-- A duration string assembled from well-formed fields, in the order the
parser steps through them: `P`, then optional `<days>D`, an optional `T`
divider, optional `<hours>H`, `<minutes>M`, `<seconds>S` and an optional
`<milliseconds>.` section. -/
def assembleDuration (days : Option (List Char)) (hasT : Bool)
    (hours minutes seconds ms : Option (List Char)) : List Char :=
  'P' :: fieldSec days 'D' (fieldSec (if hasT then some [] else none) 'T'
    (fieldSec hours 'H' (fieldSec minutes 'M'
      (fieldSec seconds 'S' (fieldSec ms '.' [])))))

/-- The integer value an optional digit field contributes (absent means 0). -/
def fieldIntVal (f : Option (List Char)) : Int :=
  match f with
  | none => 0
  | some x => (digitsVal x : Int)

/-! # Theorems -/

lemma bind_ok_pyerr {α β : Type} (a : α) (f : α → Except PyErr β) :
    (bind (Except.ok a) f : Except PyErr β) = f a := rfl

lemma bind_error_pyerr {α β : Type} (e : PyErr) (f : α → Except PyErr β) :
    (bind (Except.error e) f : Except PyErr β) = Except.error e := rfl

lemma get_isosplit_absent {s : List Char} {c : Char} (h : ∀ x ∈ s, x ≠ c) :
    get_isosplit s c = Except.ok (none, s) := by
  have h0 : s.countP (fun x => decide (x = c)) = 0 := by
    rw [List.countP_eq_zero]
    intro a ha
    simp [h a ha]
  simp [get_isosplit, h0]

lemma mem_afterLastChar {x : Char} {s : List Char} {c : Char}
    (hx : x ∈ afterLastChar s c) : x ∈ s := by
  unfold afterLastChar at hx
  cases h : lastIdxOf s c with
  | none => rw [h] at hx; exact hx
  | some i => rw [h] at hx; exact List.drop_subset _ _ hx

lemma lastIdxOf_eq_none {l : List Char} {c : Char} (h : ∀ x ∈ l, x ≠ c) :
    lastIdxOf l c = none := by
  induction l with
  | nil => rfl
  | cons a t ih =>
    have ht := ih (fun x hx => h x (List.mem_cons_of_mem _ hx))
    have ha : a ≠ c := h a (List.mem_cons_self _ _)
    simp [lastIdxOf, ht, ha]

lemma afterLastChar_cons_of_not_mem {l : List Char} {c : Char}
    (h : ∀ x ∈ l, x ≠ c) : afterLastChar (c :: l) c = l := by
  unfold afterLastChar
  simp [lastIdxOf, lastIdxOf_eq_none h]

lemma takeWhile_append_stop (c : Char) (pre post : List Char)
    (h : ∀ x ∈ pre, x ≠ c) :
    (pre ++ c :: post).takeWhile (fun x => x ≠ c) = pre := by
  induction pre with
  | nil => simp [List.takeWhile_cons]
  | cons a t ih =>
    have ha : a ≠ c := h a (List.mem_cons_self _ _)
    have ih' := ih (fun x hx => h x (List.mem_cons_of_mem _ hx))
    simp only [decide_not] at ih'
    simp [List.takeWhile_cons, ha, ih']

lemma dropWhile_append_stop (c : Char) (pre post : List Char)
    (h : ∀ x ∈ pre, x ≠ c) :
    (pre ++ c :: post).dropWhile (fun x => x ≠ c) = c :: post := by
  induction pre with
  | nil => simp [List.dropWhile_cons]
  | cons a t ih =>
    have ha : a ≠ c := h a (List.mem_cons_self _ _)
    have ih' := ih (fun x hx => h x (List.mem_cons_of_mem _ hx))
    simp only [decide_not] at ih'
    simp [List.dropWhile_cons, ha, ih']

lemma get_isosplit_present {pre post : List Char} {c : Char}
    (hpre : ∀ x ∈ pre, x ≠ c) (hpost : ∀ x ∈ post, x ≠ c) :
    get_isosplit (pre ++ c :: post) c = Except.ok (some pre, post) := by
  have hc0 : pre.countP (fun x => decide (x = c)) = 0 := by
    rw [List.countP_eq_zero]
    intro a ha
    simp [hpre a ha]
  have hc1 : post.countP (fun x => decide (x = c)) = 0 := by
    rw [List.countP_eq_zero]
    intro a ha
    simp [hpost a ha]
  have hcount : (pre ++ c :: post).countP (fun x => decide (x = c)) = 1 := by
    rw [List.countP_append, List.countP_cons, hc0, hc1]
    simp
  unfold get_isosplit
  rw [hcount]
  rw [if_neg (by norm_num), if_pos rfl]
  rw [takeWhile_append_stop c pre post hpre, dropWhile_append_stop c pre post hpre]
  rfl

lemma get_isosplit_fieldSec {f : Option (List Char)} {c : Char} {rest : List Char}
    (hf : ∀ g, f = some g → ∀ x ∈ g, x ≠ c) (hr : ∀ x ∈ rest, x ≠ c) :
    get_isosplit (fieldSec f c rest) c = Except.ok (f, rest) := by
  cases f with
  | none => exact get_isosplit_absent hr
  | some g => exact get_isosplit_present (hf g rfl) hr

lemma fieldSec_chars {P : Char → Prop} {f : Option (List Char)} {c : Char}
    {rest : List Char}
    (hf : ∀ g, f = some g → ∀ x ∈ g, P x) (hc : P c) (hr : ∀ x ∈ rest, P x) :
    ∀ x ∈ fieldSec f c rest, P x := by
  intro x hx
  cases f with
  | none => exact hr x hx
  | some g =>
    simp only [fieldSec] at hx
    rcases List.mem_append.mp hx with h1 | h2
    · exact hf g rfl x h1
    · rcases List.mem_cons.mp h2 with h3 | h4
      · subst h3; exact hc
      · exact hr x h4

lemma pyInt_digits {f : List Char} (h1 : f ≠ []) (h2 : ∀ x ∈ f, x.isDigit = true) :
    pyInt f = Except.ok (digitsVal f : Int) := by
  cases f with
  | nil => exact absurd rfl h1
  | cons a t =>
    have ha : a.isDigit = true := h2 a (List.mem_cons_self _ _)
    have hminus : a ≠ '-' := by rintro rfl; revert ha; decide
    have hplus : a ≠ '+' := by rintro rfl; revert ha; decide
    have hall : (a :: t).all Char.isDigit = true := by
      rw [List.all_eq_true]
      exact h2
    unfold pyInt
    split
    · next rest heq =>
      exact absurd (List.head_eq_of_cons_eq heq.symm) (fun hh => hminus hh.symm)
    · next rest heq =>
      exact absurd (List.head_eq_of_cons_eq heq.symm) (fun hh => hplus hh.symm)
    · next =>
      rw [if_pos ⟨List.cons_ne_nil a t, hall⟩]

lemma pyIntField_digits {f : Option (List Char)}
    (h : ∀ g, f = some g → g ≠ [] ∧ ∀ x ∈ g, x.isDigit = true) :
    pyIntField f = Except.ok (fieldIntVal f) := by
  cases f with
  | none => rfl
  | some g =>
    obtain ⟨h1, h2⟩ := h g rfl
    simp only [pyIntField, fieldIntVal]
    exact pyInt_digits h1 h2

/-- C9 (counterexample): the claim says the duration parser returns a float
without raising for **every** input string, but `parse_isoduration("D")`
raises `ValueError`: the `'D'` split yields the empty field `''` and
`int('')` fails. -/
theorem c9_counterexample :
    parse_isoduration "D".data = Except.error PyErr.valueError := by decide

/-- C9 (amended): on every input assembled from well-formed numeral fields
— an optional days field before `D`, an optional `T` divider, optional
hours/minutes fields before `H`/`M` (digit runs), an optional seconds field
before `S` (digits with an optional fraction, any numeral `float()`
accepts) and an optional milliseconds field before `.` — the parser
returns, without raising, the float
`days*86400 + hours*3600 + minutes*60 + seconds + milliseconds/1000`, each
field whose delimiter is absent contributing zero; a string containing none
of the delimiters parses to `0` whatever its other characters; and the
three quoted examples evaluate as stated. -/
theorem c9_amended_parse :
    (∀ (days : Option (List Char)) (hasT : Bool)
       (hours minutes seconds ms : Option (List Char)) (secVal : ℚ),
      (∀ g, days = some g → g ≠ [] ∧ ∀ x ∈ g, x.isDigit = true) →
      (∀ g, hours = some g → g ≠ [] ∧ ∀ x ∈ g, x.isDigit = true) →
      (∀ g, minutes = some g → g ≠ [] ∧ ∀ x ∈ g, x.isDigit = true) →
      (∀ g, ms = some g → g ≠ [] ∧ ∀ x ∈ g, x.isDigit = true) →
      (seconds = none → secVal = 0) →
      (∀ g, seconds = some g →
        (∀ x ∈ g, x.isDigit = true ∨ x = '.') ∧ pyFloat g = Except.ok secVal) →
      parse_isoduration (assembleDuration days hasT hours minutes seconds ms) =
        Except.ok (((fieldIntVal days * 86400 + fieldIntVal hours * 3600 +
          fieldIntVal minutes * 60 : Int) : ℚ) + secVal +
          (fieldIntVal ms : ℚ) / 1000)) ∧
    (∀ s : List Char,
      (∀ c ∈ s, c ≠ 'D' ∧ c ≠ 'T' ∧ c ≠ 'H' ∧ c ≠ 'M' ∧ c ≠ 'S' ∧ c ≠ '.') →
      parse_isoduration s = Except.ok 0) ∧
    parse_isoduration "PT1M30.5S".data = Except.ok (181 / 2 : ℚ) ∧
    parse_isoduration "P1DT2H".data = Except.ok (93600 : ℚ) ∧
    parse_isoduration "".data = Except.ok (0 : ℚ) := by
  refine ⟨?_, ?_, ?_, ?_, ?_⟩
  · intro days hasT hours minutes seconds ms secVal hdays hhours hminutes hms
      hsecNone hsecSome
    have hchar1 : ∀ x ∈ fieldSec ms '.' [], x.isDigit = true ∨ x = '.' :=
      fieldSec_chars (fun g hg x hx => Or.inl ((hms g hg).2 x hx)) (Or.inr rfl)
        (fun x hx => absurd hx (List.not_mem_nil x))
    have hchar2 : ∀ x ∈ fieldSec seconds 'S' (fieldSec ms '.' []),
        (x.isDigit = true ∨ x = '.') ∨ x = 'S' :=
      fieldSec_chars (fun g hg x hx => Or.inl ((hsecSome g hg).1 x hx)) (Or.inr rfl)
        (fun x hx => Or.inl (hchar1 x hx))
    have hchar3 : ∀ x ∈ fieldSec minutes 'M'
          (fieldSec seconds 'S' (fieldSec ms '.' [])),
        ((x.isDigit = true ∨ x = '.') ∨ x = 'S') ∨ x = 'M' :=
      fieldSec_chars
        (fun g hg x hx => Or.inl (Or.inl (Or.inl ((hminutes g hg).2 x hx))))
        (Or.inr rfl) (fun x hx => Or.inl (hchar2 x hx))
    have hchar4 : ∀ x ∈ fieldSec hours 'H' (fieldSec minutes 'M'
          (fieldSec seconds 'S' (fieldSec ms '.' []))),
        (((x.isDigit = true ∨ x = '.') ∨ x = 'S') ∨ x = 'M') ∨ x = 'H' :=
      fieldSec_chars
        (fun g hg x hx => Or.inl (Or.inl (Or.inl (Or.inl ((hhours g hg).2 x hx)))))
        (Or.inr rfl) (fun x hx => Or.inl (hchar3 x hx))
    have hchar5 : ∀ x ∈ fieldSec (if hasT then some [] else none) 'T'
          (fieldSec hours 'H' (fieldSec minutes 'M'
            (fieldSec seconds 'S' (fieldSec ms '.' [])))),
        ((((x.isDigit = true ∨ x = '.') ∨ x = 'S') ∨ x = 'M') ∨ x = 'H') ∨ x = 'T' := by
      refine fieldSec_chars ?_ (Or.inr rfl) (fun x hx => Or.inl (hchar4 x hx))
      intro g hg x hx
      cases hasT <;> simp_all
    have hchar6 : ∀ x ∈ fieldSec days 'D'
          (fieldSec (if hasT then some [] else none) 'T'
            (fieldSec hours 'H' (fieldSec minutes 'M'
              (fieldSec seconds 'S' (fieldSec ms '.' []))))),
        (((((x.isDigit = true ∨ x = '.') ∨ x = 'S') ∨ x = 'M') ∨ x = 'H') ∨ x = 'T')
          ∨ x = 'D' :=
      fieldSec_chars
        (fun g hg x hx =>
          Or.inl (Or.inl (Or.inl (Or.inl (Or.inl (Or.inl ((hdays g hg).2 x hx)))))))
        (Or.inr rfl) (fun x hx => Or.inl (hchar5 x hx))
    have hneP : ∀ x ∈ fieldSec days 'D'
          (fieldSec (if hasT then some [] else none) 'T'
            (fieldSec hours 'H' (fieldSec minutes 'M'
              (fieldSec seconds 'S' (fieldSec ms '.' []))))), x ≠ 'P' := by
      intro x hx
      have hcls := hchar6 x hx
      rintro rfl
      rcases hcls with ((((((h | h) | h) | h) | h) | h) | h) <;>
        revert h <;> decide
    have hneD : ∀ x ∈ fieldSec (if hasT then some [] else none) 'T'
          (fieldSec hours 'H' (fieldSec minutes 'M'
            (fieldSec seconds 'S' (fieldSec ms '.' [])))), x ≠ 'D' := by
      intro x hx
      have hcls := hchar5 x hx
      rintro rfl
      rcases hcls with (((((h | h) | h) | h) | h) | h) <;>
        revert h <;> decide
    have hneT : ∀ x ∈ fieldSec hours 'H' (fieldSec minutes 'M'
          (fieldSec seconds 'S' (fieldSec ms '.' []))), x ≠ 'T' := by
      intro x hx
      have hcls := hchar4 x hx
      rintro rfl
      rcases hcls with ((((h | h) | h) | h) | h) <;> revert h <;> decide
    have hneH : ∀ x ∈ fieldSec minutes 'M'
          (fieldSec seconds 'S' (fieldSec ms '.' [])), x ≠ 'H' := by
      intro x hx
      have hcls := hchar3 x hx
      rintro rfl
      rcases hcls with (((h | h) | h) | h) <;> revert h <;> decide
    have hneM : ∀ x ∈ fieldSec seconds 'S' (fieldSec ms '.' []), x ≠ 'M' := by
      intro x hx
      have hcls := hchar2 x hx
      rintro rfl
      rcases hcls with ((h | h) | h) <;> revert h <;> decide
    have hneS : ∀ x ∈ fieldSec ms '.' [], x ≠ 'S' := by
      intro x hx
      have hcls := hchar1 x hx
      rintro rfl
      rcases hcls with h | h <;> revert h <;> decide
    have hfD : ∀ g, days = some g → ∀ x ∈ g, x ≠ 'D' := by
      intro g hg x hx
      have h := (hdays g hg).2 x hx
      rintro rfl
      revert h
      decide
    have hfT : ∀ g, (if hasT then some [] else none) = some g →
        ∀ x ∈ g, x ≠ 'T' := by
      intro g hg x hx
      cases hasT <;> simp_all
    have hfH : ∀ g, hours = some g → ∀ x ∈ g, x ≠ 'H' := by
      intro g hg x hx
      have h := (hhours g hg).2 x hx
      rintro rfl
      revert h
      decide
    have hfM : ∀ g, minutes = some g → ∀ x ∈ g, x ≠ 'M' := by
      intro g hg x hx
      have h := (hminutes g hg).2 x hx
      rintro rfl
      revert h
      decide
    have hfS : ∀ g, seconds = some g → ∀ x ∈ g, x ≠ 'S' := by
      intro g hg x hx
      have h := (hsecSome g hg).1 x hx
      rintro rfl
      rcases h with h | h <;> revert h <;> decide
    have hfDot : ∀ g, ms = some g → ∀ x ∈ g, x ≠ '.' := by
      intro g hg x hx
      have h := (hms g hg).2 x hx
      rintro rfl
      revert h
      decide
    have eP := afterLastChar_cons_of_not_mem hneP
    have eD := get_isosplit_fieldSec hfD hneD
    have eT := get_isosplit_fieldSec hfT hneT
    have eH := get_isosplit_fieldSec hfH hneH
    have eM := get_isosplit_fieldSec hfM hneM
    have eS2 := get_isosplit_fieldSec hfS hneS
    have eDot := get_isosplit_fieldSec hfDot
      (fun x hx => absurd hx (List.not_mem_nil x))
    have cd := pyIntField_digits hdays
    have chh := pyIntField_digits hhours
    have cmm := pyIntField_digits hminutes
    have cms := pyIntField_digits hms
    have cs : pyFloatField seconds = Except.ok secVal := by
      cases hso : seconds with
      | none =>
        rw [hsecNone hso]
        rfl
      | some g =>
        simpa [pyFloatField] using (hsecSome g hso).2
    simp only [assembleDuration, parse_isoduration, eP, eD, eT, eH, eM, eS2, eDot,
      bind_ok_pyerr, cd, chh, cmm, cms, cs, Except.ok.injEq]
    rfl
  · intro s h
    have hsub : ∀ x ∈ afterLastChar s 'P',
        x ≠ 'D' ∧ x ≠ 'T' ∧ x ≠ 'H' ∧ x ≠ 'M' ∧ x ≠ 'S' ∧ x ≠ '.' :=
      fun x hx => h x (mem_afterLastChar hx)
    have eD := get_isosplit_absent (s := afterLastChar s 'P') (c := 'D')
      (fun x hx => (hsub x hx).1)
    have eT := get_isosplit_absent (s := afterLastChar s 'P') (c := 'T')
      (fun x hx => (hsub x hx).2.1)
    have eH := get_isosplit_absent (s := afterLastChar s 'P') (c := 'H')
      (fun x hx => (hsub x hx).2.2.1)
    have eM := get_isosplit_absent (s := afterLastChar s 'P') (c := 'M')
      (fun x hx => (hsub x hx).2.2.2.1)
    have eS := get_isosplit_absent (s := afterLastChar s 'P') (c := 'S')
      (fun x hx => (hsub x hx).2.2.2.2.1)
    have eDot := get_isosplit_absent (s := afterLastChar s 'P') (c := '.')
      (fun x hx => (hsub x hx).2.2.2.2.2)
    simp only [parse_isoduration, eD, eT, eH, eM, eS, eDot, bind_ok_pyerr,
      pyIntField, pyFloatField, Except.ok.injEq]
    norm_num
    rfl
  · have h : parse_isoduration "PT1M30.5S".data =
        Except.ok (((0 * 86400 + 0 * 3600 + (digitsVal ['1'] : Int) * 60 : Int) : ℚ)
          + ((digitsVal ['3', '0'] : ℚ) + (digitsVal ['5'] : ℚ) / ((10 : ℚ) ^ (1 : Nat)))
          + ((0 : Int) : ℚ) / 1000) := rfl
    rw [h]
    norm_num [digitsVal, show '1'.toNat - '0'.toNat = 1 from rfl,
      show '3'.toNat - '0'.toNat = 3 from rfl, show '5'.toNat - '0'.toNat = 5 from rfl]
  · have h : parse_isoduration "P1DT2H".data =
        Except.ok ((((digitsVal ['1'] : Int) * 86400 + (digitsVal ['2'] : Int) * 3600
          + 0 * 60 : Int) : ℚ) + (0 : ℚ) + ((0 : Int) : ℚ) / 1000) := rfl
    rw [h]
    norm_num [digitsVal, show '1'.toNat - '0'.toNat = 1 from rfl,
      show '2'.toNat - '0'.toNat = 2 from rfl]
  · have h : parse_isoduration "".data =
        Except.ok (((0 * 86400 + 0 * 3600 + 0 * 60 : Int) : ℚ) + (0 : ℚ)
          + ((0 : Int) : ℚ) / 1000) := rfl
    rw [h]
    norm_num

theorem c9_amended_parse_witness :
    parse_isoduration "P2DT7S".data = Except.ok (172807 : ℚ) ∧
    parse_isoduration "xyz".data = Except.ok 0 := by
  constructor
  · have h := c9_amended_parse.1 (some ['2']) true none none (some ['7']) none
      ((digitsVal ['7'] : Nat) : ℚ)
      (by intro g hg; injection hg with h2; subst h2; exact ⟨by decide, by decide⟩)
      (by intro g hg; exact Option.noConfusion hg)
      (by intro g hg; exact Option.noConfusion hg)
      (by intro g hg; exact Option.noConfusion hg)
      (by intro hcontra; exact Option.noConfusion hcontra)
      (by intro g hg; injection hg with h2; subst h2; exact ⟨by decide, rfl⟩)
    have hinput : assembleDuration (some ['2']) true none none (some ['7']) none =
        "P2DT7S".data := by decide
    rw [hinput] at h
    rw [h]
    simp only [Except.ok.injEq]
    norm_num [fieldIntVal, digitsVal, show '2'.toNat - '0'.toNat = 2 from rfl,
      show '7'.toNat - '0'.toNat = 7 from rfl]
  · exact c9_amended_parse.2.1 "xyz".data (by decide)

/-- C1 (code evaluated at the failing input): `RepAddr` inherits identity
equality and hashing, so two `ensure_downloader` calls with distinct
`RepAddr` objects carrying the same three indices — which is what every
refresh produces, since `handle_mpd` constructs fresh `RepAddr(0, as_idx,
rep_idx)` objects each time — construct two `DashDownloader` instances
instead of reusing the first. -/
theorem c1_registry_identity_bug :
    ((⟨1, 0, 0, 0⟩ : PyRepAddr).period_idx = (⟨2, 0, 0, 0⟩ : PyRepAddr).period_idx ∧
     (⟨1, 0, 0, 0⟩ : PyRepAddr).adaptation_set_idx =
       (⟨2, 0, 0, 0⟩ : PyRepAddr).adaptation_set_idx ∧
     (⟨1, 0, 0, 0⟩ : PyRepAddr).representation_idx =
       (⟨2, 0, 0, 0⟩ : PyRepAddr).representation_idx) ∧
    (ensure_downloader (ensure_downloader ([], 0) ⟨1, 0, 0, 0⟩) ⟨2, 0, 0, 0⟩).2 = 2 := by
  decide

/-- C2 (code evaluated at the failing input): a non-2xx manifest response
makes `refresh_mpd` raise `NameError` (the bare name `retry_interval` in
the warning's format arguments is unbound inside the method), so no warning
is logged, no retry is scheduled, and the exception escapes; a 2xx response
proceeds normally. -/
theorem c2_manifest_retry_nameerror :
    refresh_mpd_status_branch 404 = Except.error PyErr.nameError ∧
    refresh_mpd_status_branch 500 = Except.error PyErr.nameError ∧
    refresh_mpd_status_branch 200 = Except.ok true := by
  decide

/-- C7 (counterexample): the claim asserts the controller re-fetches iff the
root *carries* a `minimumUpdatePeriod` attribute, but an attribute present
with the empty value is falsy and terminates the controller. -/
theorem c7_counterexample :
    lookupAttr [("minimumUpdatePeriod", "")] "minimumUpdatePeriod" = some "" ∧
    after_write_transition [("minimumUpdatePeriod", "")] = NextAction.terminate := by
  decide

/-- C7 (amended): after writing the output the controller schedules another
fetch after a fixed 10-second delay iff the root carries a
`minimumUpdatePeriod` attribute with a **non-empty** value (the value is
otherwise unused); in every other case — attribute absent or empty — it
terminates after this single cycle. -/
theorem c7_amended_schedule :
    ∀ attribs : List (String × String),
      (after_write_transition attribs = NextAction.refreshAfter 10 ↔
        ∃ v, lookupAttr attribs "minimumUpdatePeriod" = some v ∧ v ≠ "") ∧
      (after_write_transition attribs = NextAction.refreshAfter 10 ∨
        after_write_transition attribs = NextAction.terminate) := by
  intro attribs
  unfold after_write_transition
  cases h : lookupAttr attribs "minimumUpdatePeriod" with
  | none => simp [h]
  | some v =>
    by_cases hv : v = ""
    · subst hv
      simp [h]
    · simp [h, hv]

/-- C8 (code evaluated at the failing input): a manifest whose root carries
a `BaseURL` child with an absolute URL. The source's `find('mpd:BaseUrl')`
queries the tag `BaseUrl`, which never matches the DASH element `BaseURL`,
so the resolved base remains the manifest URL's directory; and even a child
whose tag were literally `BaseUrl` is skipped because `if baseUrlNode:` is
ElementTree truthiness (= has child elements), false for a text-only
element. -/
theorem c8_baseurl_ignored :
    get_base_url "http://host/path/manifest.mpd"
        ⟨[⟨"BaseURL", some "http://cdn.example/media/", 0⟩]⟩ =
      Except.ok "http://host/path/" ∧
    get_base_url "http://host/path/manifest.mpd"
        ⟨[⟨"BaseUrl", some "http://cdn.example/media/", 0⟩]⟩ =
      Except.ok "http://host/path/" := by
  decide

/-- C10: in number mode (no `SegmentTimeline`) with the `SegmentTemplate`
only on the Representation, line 304 dereferences the absent
AdaptationSet-level template and raises `AttributeError` instead of falling
back to the defaults `timescale=1, duration=1, startNumber=1`. -/
theorem c10_adapt_template_required :
    ∀ (a : AdaptNode) (rep : RepNode) (st : SegTemplate)
      (fs : List (List Char)) (http : List Char → Int) (base : List Char)
      (mediaDur : ℚ),
      a.template = none →
      rep.template = some st →
      st.timeline = none →
      number_section fs http base mediaDur rep st (segment_template_from_adapt a) =
        Except.error PyErr.attributeError := by
  intro a rep st fs http base mediaDur ha _ _
  simp [number_section, segment_template_from_adapt, ha]

theorem c10_adapt_template_required_witness :
    number_section [] (fun _ => 200) [] 0 sampleRepN sampleNumberTemplate
        (segment_template_from_adapt ⟨"video/mp4", none, [sampleRepN]⟩) =
      Except.error PyErr.attributeError :=
  c10_adapt_template_required ⟨"video/mp4", none, [sampleRepN]⟩ sampleRepN
    sampleNumberTemplate [] (fun _ => 200) [] 0 rfl rfl rfl

/-- C3: whatever `handle_mpd` does to the live tree, the manifest it hands
to the serializer for `manifest.mpd` is the snapshot taken at entry — the
downloaders' in-place expansion of repeated `S` entries and their `t`
assignments (both visible in `mpdAfter`) never reach the written output. -/
theorem c3_snapshot_written :
    ∀ (mime_type : String) (m : Mpd) (r : HandleMpdResult),
      proxy_handle_mpd mime_type m = Except.ok r → r.written = m := by
  intro mt m r h
  obtain ⟨attribs, periods⟩ := m
  cases periods with
  | nil => simp [proxy_handle_mpd] at h
  | cons period rest =>
    cases hq : processPeriod mt period with
    | error e =>
      simp [proxy_handle_mpd, hq, bind_error_pyerr] at h
    | ok period' =>
      simp only [proxy_handle_mpd, hq, bind_ok_pyerr, Except.ok.injEq] at h
      rw [← h]

theorem c3_snapshot_written_witness :
    (proxy_handle_mpd "" sampleMpd =
      Except.ok ⟨sampleMpd, sampleMpdMutated, NextAction.refreshAfter 10⟩) ∧
    (⟨sampleMpd, sampleMpdMutated, NextAction.refreshAfter 10⟩ : HandleMpdResult).written
      = sampleMpd ∧
    sampleMpdMutated ≠ sampleMpd :=
  ⟨by decide,
   c3_snapshot_written "" sampleMpd ⟨sampleMpd, sampleMpdMutated, NextAction.refreshAfter 10⟩
     (by decide),
   by decide⟩

lemma pyInsert_middle {α : Type} (pre post : List α) (x : α) :
    pyInsert (pre ++ post) pre.length x = pre ++ x :: post := by
  unfold pyInsert
  rw [List.take_left, List.drop_left]

lemma insertRepeats_append (dur : Int) :
    ∀ (n : Nat) (pre post : List SElem),
      insertRepeats (pre ++ post) pre.length dur n =
        (pre ++ List.replicate n ⟨none, some dur, none⟩ ++ post, pre.length + n) := by
  intro n
  induction n with
  | zero =>
    intro pre post
    simp [insertRepeats]
  | succ k ih =>
    intro pre post
    unfold insertRepeats
    rw [pyInsert_middle]
    have h2 := ih (pre ++ [⟨none, some dur, none⟩]) post
    rw [List.append_assoc, List.singleton_append] at h2
    have hl : (pre ++ [(⟨none, some dur, none⟩ : SElem)]).length = pre.length + 1 := by
      simp
    rw [hl] at h2
    rw [h2]
    congr 1
    · simp [List.replicate_succ]
    · omega

lemma expandPass_spec :
    ∀ (rest done : List SElem),
      expandPass rest done.length (done ++ rest) = done ++ claimExpand rest := by
  intro rest
  induction rest with
  | nil =>
    intro done
    simp [expandPass, claimExpand]
  | cons seg rest' ih =>
    intro done
    unfold expandPass
    have h1 : done ++ seg :: rest' = (done ++ [seg]) ++ rest' := by simp
    have h2 : done.length + 1 = (done ++ [seg]).length := by simp
    rw [h1, h2, insertRepeats_append]
    have h3 : (done ++ [seg]) ++ List.replicate (seg.r.getD 0).toNat
          ⟨none, some (seg.d.getD 0), none⟩ ++ rest' =
        (done ++ seg :: List.replicate (seg.r.getD 0).toNat
          ⟨none, some (seg.d.getD 0), none⟩) ++ rest' := by
      simp
    have h4 : (done ++ [seg]).length + (seg.r.getD 0).toNat =
        (done ++ seg :: List.replicate (seg.r.getD 0).toNat
          ⟨none, some (seg.d.getD 0), none⟩).length := by
      simp only [List.length_append, List.length_cons, List.length_replicate,
        List.length_nil]
      omega
    rw [h3, h4, ih]
    simp [claimExpand]

lemma expand_segments_eq_claimExpand (ss : List SElem) :
    expand_segments ss = claimExpand ss := by
  have h := expandPass_spec ss []
  simpa [expand_segments] using h

lemma assignPass_eq_claimAssign :
    ∀ (l : List SElem) (next : Int),
      (∀ s ∈ l, ∀ tv, s.t = some tv → 0 ≤ tv) →
      assignPass next l = claimAssign next l := by
  intro l
  induction l with
  | nil =>
    intro next _
    rfl
  | cons s rest ih =>
    intro next h
    have htail : ∀ x ∈ rest, ∀ tv, x.t = some tv → 0 ≤ tv :=
      fun x hx => h x (List.mem_cons_of_mem _ hx)
    unfold assignPass claimAssign
    cases hst : s.t with
    | none =>
      simp only [hst, Option.getD_none, if_true]
      rw [ih _ htail]
    | some tv =>
      have htv : 0 ≤ tv := h s (List.mem_cons_self _ _) tv hst
      have hne : tv ≠ -1 := by omega
      simp only [hst, Option.getD_some, if_neg hne]
      rw [ih _ htail]

lemma claimExpand_t_nonneg :
    ∀ {ss : List SElem},
      (∀ s ∈ ss, ∀ tv, s.t = some tv → 0 ≤ tv) →
      ∀ s ∈ claimExpand ss, ∀ tv, s.t = some tv → 0 ≤ tv := by
  intro ss
  induction ss with
  | nil =>
    intro _ s hs
    simp [claimExpand] at hs
  | cons a rest ih =>
    intro h s hs
    rw [claimExpand, List.mem_cons] at hs
    rcases hs with h1 | h2
    · subst h1
      exact h s (List.mem_cons_self _ _)
    · rcases List.mem_append.mp h2 with h3 | h4
      · have := List.eq_of_mem_replicate h3
        subst this
        intro tv htv
        simp at htv
      · exact ih (fun x hx => h x (List.mem_cons_of_mem _ hx)) s h4

/-- C4: on any ordered `S` entry list with non-negative repeat counts and
non-negative explicit start times, the source's two-pass in-place resolution
equals the claim's single-pass description: each entry contributes `r + 1`
consecutive entries of its duration at its own position, and times come from
a running cursor that an explicit `t` resets and that otherwise supplies the
entry's time, advancing by `d` after every entry; in particular
`[(t=None, d=10, r=2)]` resolves to times `0, 10, 20`. -/
theorem c4_timeline_resolution :
    (∀ ss : List SElem,
      (∀ s ∈ ss, 0 ≤ s.r.getD 0) →
      (∀ s ∈ ss, ∀ tv, s.t = some tv → 0 ≤ tv) →
      resolve_timeline ss = claimAssign 0 (claimExpand ss)) ∧
    (resolve_timeline [⟨none, some 10, some 2⟩]).map SElem.t =
      [some 0, some 10, some 20] := by
  constructor
  · intro ss _ ht
    unfold resolve_timeline
    rw [expand_segments_eq_claimExpand]
    exact assignPass_eq_claimAssign _ 0 (claimExpand_t_nonneg ht)
  · decide

theorem c4_timeline_resolution_witness :
    resolve_timeline [⟨none, some 10, some 2⟩] =
      claimAssign 0 (claimExpand [⟨none, some 10, some 2⟩]) :=
  c4_timeline_resolution.1 [⟨none, some 10, some 2⟩] (by decide) (by decide)

lemma numberLoop_ok (fs : List (List Char)) (http : List Char → Int)
    (base tmpl : List Char) :
    ∀ is : List Int,
      (∀ i ∈ is, exceptOk (pyFormatNumber tmpl i) = true) →
      ∃ l, numberLoop fs http base tmpl is = Except.ok l ∧ l.map Prod.fst = is := by
  intro is
  induction is with
  | nil =>
    intro _
    exact ⟨[], rfl, rfl⟩
  | cons i rest ih =>
    intro h
    have hi := h i (List.mem_cons_self _ _)
    cases hd : pyFormatNumber tmpl i with
    | error e =>
      rw [hd] at hi
      exact absurd hi (by simp [exceptOk])
    | ok dest =>
      obtain ⟨tl, htl, hmap⟩ := ih (fun x hx => h x (List.mem_cons_of_mem _ hx))
      refine ⟨(i, Act.get (base ++ dest) ::
          (if 200 ≤ http (base ++ dest) ∧ http (base ++ dest) < 300 then
            [Act.write dest] else [Act.logLine])) :: tl, ?_, ?_⟩
      · simp only [numberLoop, hd, bind_ok_pyerr, htl]
      · simp [hmap]

lemma numberLoop_mem (fs : List (List Char)) (http : List Char → Int)
    (base tmpl : List Char) :
    ∀ (is : List Int) (l : List (Int × List Act)),
      numberLoop fs http base tmpl is = Except.ok l →
      ∀ (i : Int) (acts : List Act), (i, acts) ∈ l →
        ∃ dest, pyFormatNumber tmpl i = Except.ok dest ∧
          acts = Act.get (base ++ dest) ::
            (if 200 ≤ http (base ++ dest) ∧ http (base ++ dest) < 300 then
              [Act.write dest] else [Act.logLine]) := by
  intro is
  induction is with
  | nil =>
    intro l hl i acts hmem
    simp only [numberLoop, Except.ok.injEq] at hl
    subst hl
    simp at hmem
  | cons j rest ih =>
    intro l hl i acts hmem
    cases hd : pyFormatNumber tmpl j with
    | error e =>
      simp [numberLoop, hd, bind_error_pyerr] at hl
    | ok dest =>
      cases ht : numberLoop fs http base tmpl rest with
      | error e =>
        simp [numberLoop, hd, ht, bind_ok_pyerr, bind_error_pyerr] at hl
      | ok tl =>
        simp only [numberLoop, hd, ht, bind_ok_pyerr, Except.ok.injEq] at hl
        subst hl
        rcases List.mem_cons.mp hmem with hh | hh
        · simp only [Prod.mk.injEq] at hh
          obtain ⟨hi, hacts⟩ := hh
          subst hi
          subst hacts
          exact ⟨dest, hd, rfl⟩
        · exact ih tl ht i acts hh

/-- C5: in number mode the three parameters resolve field-by-field exactly
as the claim states them, and — given positive resolved timescale and
duration, a non-negative presentation duration and rendering that does not
raise — the loop issues downloads for exactly the indices `startNumber`
through `⌊mediaPresentationDurationSeconds / (duration/timescale)⌋`
inclusive, in increasing order. -/
theorem c5_number_mode :
    ∀ (fs : List (List Char)) (http : List Char → Int) (base : List Char)
      (mediaDur : ℚ) (rep : RepNode) (adaptT st : SegTemplate) (fT fD fS : Int),
      resolveNumberParams adaptT st = (fT, fD, fS) →
      0 < fT → 0 < fD → 0 ≤ mediaDur →
      (∀ i ∈ pyRange fS (⌊mediaDur / ((fD : ℚ) / (fT : ℚ))⌋ + 1),
        exceptOk (pyFormatNumber
          (transformNumberTemplate (st.media.getD []) rep) i) = true) →
      resolveNumberParams adaptT st = specResolveNumberParams adaptT st ∧
      ∃ l, number_section fs http base mediaDur rep st (some adaptT) = Except.ok l ∧
        l.map Prod.fst = pyRange fS (⌊mediaDur / ((fD : ℚ) / (fT : ℚ))⌋ + 1) := by
  intro fs http base mediaDur rep adaptT st fT fD fS hres hfT hfD hM hr
  constructor
  · unfold resolveNumberParams specResolveNumberParams
    cases st.timescale <;> cases st.duration <;> cases st.startNumber <;> rfl
  · simp only [number_section]
    rw [hres]
    have hfT0 : ¬ ((fT, fD, fS).1 = 0) := by
      simp only [Prod.fst]
      omega
    rw [if_neg hfT0]
    have hTQ : (0 : ℚ) < ((fT, fD, fS).1 : ℚ) := by
      simp only [Prod.fst]
      exact_mod_cast hfT
    have hDQ : (0 : ℚ) < ((fT, fD, fS).2.1 : ℚ) := by
      simp only [Prod.snd, Prod.fst]
      exact_mod_cast hfD
    have hq : ¬ ((((fT, fD, fS).2.1 : Int) : ℚ) / (((fT, fD, fS).1 : Int) : ℚ) = 0) :=
      ne_of_gt (div_pos hDQ hTQ)
    rw [if_neg hq]
    have hq0 : 0 ≤ mediaDur / ((((fT, fD, fS).2.1 : Int) : ℚ) / (((fT, fD, fS).1 : Int) : ℚ)) :=
      div_nonneg hM (le_of_lt (div_pos hDQ hTQ))
    have htr : truncQ (mediaDur / ((((fT, fD, fS).2.1 : Int) : ℚ) / (((fT, fD, fS).1 : Int) : ℚ))) =
        ⌊mediaDur / ((fD : ℚ) / (fT : ℚ))⌋ := by
      unfold truncQ
      rw [if_pos hq0]
    rw [htr]
    exact numberLoop_ok fs http base _ _ hr

theorem c5_number_mode_witness :
    ∃ l, number_section [] (fun _ => 200) [] 12 sampleRepN sampleNumberTemplate
        (some sampleAdaptTemplate) = Except.ok l ∧
      l.map Prod.fst = [1, 2, 3] := by
  have hfloor : (⌊(12 : ℚ) / (((4 : Int) : ℚ) / ((1 : Int) : ℚ))⌋ : Int) = 3 := by
    norm_num
  have hrange : pyRange 1 (⌊(12 : ℚ) / (((4 : Int) : ℚ) / ((1 : Int) : ℚ))⌋ + 1) =
      [1, 2, 3] := by
    rw [hfloor]
    decide
  have hrender : ∀ i ∈ pyRange 1 (⌊(12 : ℚ) / (((4 : Int) : ℚ) / ((1 : Int) : ℚ))⌋ + 1),
      exceptOk (pyFormatNumber (transformNumberTemplate
        (sampleNumberTemplate.media.getD []) sampleRepN) i) = true := by
    rw [hrange]
    decide
  obtain ⟨-, l, hl, hmap⟩ := c5_number_mode [] (fun _ => 200) [] 12 sampleRepN
    sampleAdaptTemplate sampleNumberTemplate 1 4 1 (by decide) (by decide) (by decide)
    (by norm_num) hrender
  refine ⟨l, hl, ?_⟩
  rw [hmap, hrange]

/-- The concrete number-mode section of the witnesses: with the end-to-end
scenario's parameters the loop runs over exactly the indices `[1, 2, 3]`. -/
lemma number_section_sample (fs : List (List Char)) (http : List Char → Int)
    (base : List Char) :
    number_section fs http base 12 sampleRepN sampleNumberTemplate
        (some sampleAdaptTemplate) =
      numberLoop fs http base (transformNumberTemplate
        (sampleNumberTemplate.media.getD []) sampleRepN) [1, 2, 3] := by
  simp only [number_section]
  rw [show resolveNumberParams sampleAdaptTemplate sampleNumberTemplate =
    ((1 : Int), (4 : Int), (1 : Int)) from rfl]
  rw [if_neg (show ¬ (((1 : Int), (4 : Int), (1 : Int)).1 = 0) by decide)]
  rw [if_neg (show ¬ (((((1 : Int), (4 : Int), (1 : Int)).2.1 : Int) : ℚ) /
      ((((1 : Int), (4 : Int), (1 : Int)).1 : Int) : ℚ) = 0) by norm_num)]
  rw [show truncQ ((12 : ℚ) / (((((1 : Int), (4 : Int), (1 : Int)).2.1 : Int) : ℚ) /
      ((((1 : Int), (4 : Int), (1 : Int)).1 : Int) : ℚ))) = 3 by
    unfold truncQ
    rw [if_pos (by norm_num)]
    norm_num]
  rw [show pyRange ((1 : Int), (4 : Int), (1 : Int)).2.2 ((3 : Int) + 1) = [1, 2, 3]
    from by decide]

/-- C6: the write policy is asymmetric exactly as claimed.  Timeline mode
and the initialization segment go through `download_template`, which skips
— no GET, no write, only a log line — whenever the destination's relative
path already exists; number mode never consults the filesystem: every
resolved index is fetched and, on a 2xx status, written, even when the
destination is already present in `fs`. -/
theorem c6_write_policy :
    (∀ (fs : List (List Char)) (http : List Char → Int) (base tmpl : List Char)
       (rep : Option RepNode) (seg : Option SElem) (dest : List Char),
       render_template tmpl rep seg = Except.ok dest →
       get_relative_file_path dest ∈ fs →
       download_template fs http base tmpl rep seg = Except.ok [Act.logLine]) ∧
    (∀ (fs : List (List Char)) (http : List Char → Int) (base : List Char)
       (mediaDur : ℚ) (rep : RepNode) (st adaptT : SegTemplate)
       (l : List (Int × List Act)) (i : Int) (acts : List Act) (dest : List Char),
       number_section fs http base mediaDur rep st (some adaptT) = Except.ok l →
       (i, acts) ∈ l →
       pyFormatNumber (transformNumberTemplate (st.media.getD []) rep) i =
         Except.ok dest →
       dest ∈ fs →
       200 ≤ http (base ++ dest) → http (base ++ dest) < 300 →
       acts = [Act.get (base ++ dest), Act.write dest]) := by
  constructor
  · intro fs http base tmpl rep seg dest hrd hmem
    simp only [download_template, hrd, bind_ok_pyerr]
    rw [if_pos hmem]
  · intro fs http base mediaDur rep st adaptT l i acts dest hsec hmem hfmt hfs h2a h2b
    simp only [number_section] at hsec
    by_cases hT : (resolveNumberParams adaptT st).1 = 0
    · rw [if_pos hT] at hsec
      exact absurd hsec (by simp)
    · rw [if_neg hT] at hsec
      by_cases hQ : ((resolveNumberParams adaptT st).2.1 : ℚ) /
          ((resolveNumberParams adaptT st).1 : ℚ) = 0
      · rw [if_pos hQ] at hsec
        exact absurd hsec (by simp)
      · rw [if_neg hQ] at hsec
        obtain ⟨dest', hdest', hacts⟩ := numberLoop_mem fs http base _ _ l hsec i acts hmem
        rw [hfmt] at hdest'
        injection hdest' with he
        subst he
        rw [hacts, if_pos ⟨h2a, h2b⟩]

theorem c6_write_policy_witness :
    (get_relative_file_path "init.mp4".data ∈ ["init.mp4".data] ∧
     download_template ["init.mp4".data] (fun _ => 200) "http://h/".data
       "init.mp4".data none none = Except.ok [Act.logLine]) ∧
    (number_section ["v0_1.m4s".data] (fun _ => 200) "http://h/".data 12
        sampleRepN sampleNumberTemplate (some sampleAdaptTemplate) =
      Except.ok [(1, [Act.get ("http://h/".data ++ "v0_1.m4s".data),
                      Act.write "v0_1.m4s".data]),
                 (2, [Act.get ("http://h/".data ++ "v0_2.m4s".data),
                      Act.write "v0_2.m4s".data]),
                 (3, [Act.get ("http://h/".data ++ "v0_3.m4s".data),
                      Act.write "v0_3.m4s".data])] ∧
     ("v0_1.m4s".data ∈ (["v0_1.m4s".data] : List (List Char))) ∧
     [Act.get ("http://h/".data ++ "v0_1.m4s".data), Act.write "v0_1.m4s".data] =
       [Act.get ("http://h/".data ++ "v0_1.m4s".data), Act.write "v0_1.m4s".data]) := by
  have hsec : number_section ["v0_1.m4s".data] (fun _ => 200) "http://h/".data 12
      sampleRepN sampleNumberTemplate (some sampleAdaptTemplate) =
      Except.ok [(1, [Act.get ("http://h/".data ++ "v0_1.m4s".data),
                      Act.write "v0_1.m4s".data]),
                 (2, [Act.get ("http://h/".data ++ "v0_2.m4s".data),
                      Act.write "v0_2.m4s".data]),
                 (3, [Act.get ("http://h/".data ++ "v0_3.m4s".data),
                      Act.write "v0_3.m4s".data])] := by
    rw [number_section_sample]
    decide
  refine ⟨⟨by decide, ?_⟩, hsec, by decide, ?_⟩
  · exact c6_write_policy.1 ["init.mp4".data] (fun _ => 200) "http://h/".data
      "init.mp4".data none none "init.mp4".data (by decide) (by decide)
  · exact c6_write_policy.2 ["v0_1.m4s".data] (fun _ => 200) "http://h/".data 12
      sampleRepN sampleNumberTemplate sampleAdaptTemplate _ 1
      [Act.get ("http://h/".data ++ "v0_1.m4s".data), Act.write "v0_1.m4s".data]
      "v0_1.m4s".data hsec (by decide) (by decide) (by decide) (by decide) (by decide)
